import Mathlib

/-!
Verification of the datafuse scatter engine specification and of the
query-schema analysis code (`query_schema.rs`).

The scatter engine implementation itself is not present in the visible
source tree (only its test surface, `scatter_test.rs`, is), so the engine
is modelled from the specification: a two-pass counting partition whose
scatter pass appends element `i` to the builder with index
`destinations[i]`, finalized in destination order.  Concrete scenarios
from the test file are then checked against this model.

The query-schema code (`AnalyzeQuerySchema` and its helpers) is embedded
from the source file directly; Rust panics (`unimplemented!`) are
modelled as `Option.none`, fallible functions return `Except`.
-/

universe u

/-- Modelled from the spec: the scatter pass of the scatter engine
(section 4.1, step 3).  The engine implementation is missing from the
visible source; rows are consumed in order and row `i` is appended to
output builder `destinations[i]`.  Builders are modelled as the lists of
elements appended so far. -/
def scatterFold {α : Type u} (outs : List (List α)) (rows : List (α × Nat)) : List (List α) :=
  rows.foldl (fun acc row => acc.set row.2 (acc.getD row.2 [] ++ [row.1])) outs

/-- Modelled from the spec: the unchecked scatter entry point
(`scatter_unchecked`), whose implementation is missing from the visible
source.  It allocates `K` builders, runs the scatter pass over the rows
paired with their destinations, and finalizes the builders in destination
order. -/
def scatter_unchecked {α : Type u} (xs : List α) (ds : List Nat) (K : Nat) : List (List α) :=
  scatterFold (List.replicate K []) (xs.zip ds)

/-- Modelled from the spec: the error kinds of the checked scatter entry
point (section 7). -/
inductive ScatterError where
  | LengthMismatch (expected got : Nat)
  | InvalidDestination (row dest : Nat)
  | ZeroPartitions
deriving DecidableEq

/-- Modelled from the spec: scan for the first destination value that is
out of range, returning its row index and value (section 7,
`InvalidDestination` is surfaced with the offending row index). -/
def firstInvalid (K : Nat) : Nat → List Nat → Option (Nat × Nat)
  | _, [] => none
  | i, d :: rest => if K ≤ d then some (i, d) else firstInvalid K (i + 1) rest

/-- Modelled from the spec: the checked scatter entry point (section 4.1
public contract and section 7), whose implementation is missing from the
visible source.  It validates the destination-sequence length first
(before any allocation), then the degenerate partition count, then every
destination value, and only then runs the scatter algorithm. -/
def scatter_checked {α : Type u} (xs : List α) (ds : List Nat) (K : Nat) :
    Except ScatterError (List (List α)) :=
  if ds.length ≠ xs.length then
    Except.error (ScatterError.LengthMismatch xs.length ds.length)
  else if K = 0 ∧ xs.length ≠ 0 then
    Except.error ScatterError.ZeroPartitions
  else
    match firstInvalid K 0 ds with
    | some (i, d) => Except.error (ScatterError.InvalidDestination i d)
    | none => Except.ok (scatter_unchecked xs ds K)

/-- Modelled from the spec: the data buffer of a finalized variable-length
(string) builder is the concatenation of the appended byte slices in
append order (section 4.2). -/
def value_data (rows : List String) : String :=
  String.join rows

/-- Modelled from the spec: the bit-packed value buffer of a boolean
array, least-significant bit first (row 0 is bit 0 of the first byte). -/
def bitPack : List Bool → Nat
  | [] => 0
  | b :: rest => (if b then 1 else 0) + 2 * bitPack rest

/-- Modelled from the spec: the child value buffer of a finalized list
array is the concatenation of the appended whole groups in append order
(sections 4.1 and 4.2, list elements are promoted intact). -/
def child_values (groups : List (List Nat)) : List Nat :=
  groups.flatten

/- Embedding of `query_schema.rs`.  The collaborating types
(`DataField`, `DataSchema`, the table trait object and
`QueryAnalyzeState`) are external to the visible source and are modelled
by the surface the schema code uses: a list of fields, each with a name,
a data type and nullability. -/

/-- A logical data type; opaque to the schema code, carried through. -/
structure DataType where
  name : String
deriving DecidableEq

/-- A named, typed, nullability-carrying field of a data schema. -/
structure DataField where
  name : String
  data_type : DataType
  nullable : Bool
deriving DecidableEq

/-- A resolved data schema: an ordered list of fields. -/
structure DataSchema where
  fields : List DataField
deriving DecidableEq

/-- The table collaborator, modelled by the only capability the schema
code uses: its schema. -/
structure TableModel where
  schema : DataSchema
deriving DecidableEq

/-- The subquery analyze state, modelled by the only capability the
schema code uses: its finalized schema. -/
structure QueryAnalyzeState where
  finalize_schema : DataSchema
deriving DecidableEq

/-- Error codes produced by the schema code (`ErrorCode::LogicalError`). -/
structure ErrorCode where
  logical_message : String
deriving DecidableEq

/-- `AnalyzeQueryColumnDesc` from `query_schema.rs`. -/
structure AnalyzeQueryColumnDesc where
  short_name : String
  data_type : DataType
  nullable : Bool
  is_ambiguity : Bool
deriving DecidableEq

/-- `AnalyzeQueryColumnDesc::from_field`. -/
def AnalyzeQueryColumnDesc.from_field (field : DataField) (amb : Bool) :
    AnalyzeQueryColumnDesc :=
  { short_name := field.name
    data_type := field.data_type
    nullable := field.nullable
    is_ambiguity := amb }

/-- `AnalyzeQueryColumnDesc::create`. -/
def AnalyzeQueryColumnDesc.create (aliasName : String) (data_type : DataType) (nullable : Bool) :
    AnalyzeQueryColumnDesc :=
  { short_name := aliasName
    data_type := data_type
    nullable := nullable
    is_ambiguity := false }

/-- `AnalyzeQueryColumnDesc::column_name`; the ambiguous branch is
`unimplemented!` in the source, modelled as `none`. -/
def AnalyzeQueryColumnDesc.column_name (c : AnalyzeQueryColumnDesc) : Option String :=
  match c.is_ambiguity with
  | true => none
  | false => some c.short_name

/-- `AnalyzeQueryTableDesc` from `query_schema.rs`. -/
inductive AnalyzeQueryTableDesc where
  | table (tbl : TableModel) (name_parts : List String)
      (columns_desc : List AnalyzeQueryColumnDesc)
  | subquery (state : QueryAnalyzeState) (name_parts : List String)
      (columns_desc : List AnalyzeQueryColumnDesc)
deriving DecidableEq

/-- `AnalyzeQueryTableDesc::from_table`: one column description per
schema field, none marked ambiguous. -/
def AnalyzeQueryTableDesc.from_table (t : TableModel) (pfx : List String) :
    AnalyzeQueryTableDesc :=
  AnalyzeQueryTableDesc.table t pfx
    (t.schema.fields.map (fun f => AnalyzeQueryColumnDesc.from_field f false))

/-- `AnalyzeQueryTableDesc::from_subquery`: one column description per
finalized-schema field, none marked ambiguous. -/
def AnalyzeQueryTableDesc.from_subquery (st : QueryAnalyzeState) (pfx : List String) :
    AnalyzeQueryTableDesc :=
  AnalyzeQueryTableDesc.subquery st pfx
    (st.finalize_schema.fields.map (fun f => AnalyzeQueryColumnDesc.from_field f false))

/-- `AnalyzeQueryTableDesc::get_name_parts`. -/
def AnalyzeQueryTableDesc.get_name_parts : AnalyzeQueryTableDesc → List String
  | AnalyzeQueryTableDesc.table _ np _ => np
  | AnalyzeQueryTableDesc.subquery _ np _ => np

/-- `AnalyzeQueryTableDesc::get_columns_desc`. -/
def AnalyzeQueryTableDesc.get_columns_desc :
    AnalyzeQueryTableDesc → List AnalyzeQueryColumnDesc
  | AnalyzeQueryTableDesc.table _ _ cd => cd
  | AnalyzeQueryTableDesc.subquery _ _ cd => cd

/-- `AnalyzeQuerySchema` from `query_schema.rs`; the short-name hash map
is modelled as an association list in insertion order. -/
structure AnalyzeQuerySchema where
  short_name_columns : List (String × AnalyzeQueryColumnDesc)
  tables_long_name_columns : List AnalyzeQueryTableDesc
deriving DecidableEq

/-- `AnalyzeQuerySchema::none`. -/
def AnalyzeQuerySchema.none : AnalyzeQuerySchema :=
  { short_name_columns := [], tables_long_name_columns := [] }

/-- The loop body of `AnalyzeQuerySchema::from_table_desc`: insert each
column description under its short name, failing with a `LogicalError`
on a vacant/occupied collision. -/
def insertColumns (name_parts : List String) :
    List (String × AnalyzeQueryColumnDesc) → List AnalyzeQueryColumnDesc →
    Except ErrorCode (List (String × AnalyzeQueryColumnDesc))
  | m, [] => Except.ok m
  | m, c :: rest =>
    if m.any (fun p => p.1 == c.short_name) then
      Except.error
        { logical_message :=
            "Logical error: same columns in " ++ String.intercalate "." name_parts ++
              ", this is a bug." }
    else
      insertColumns name_parts (m ++ [(c.short_name, c)]) rest

/-- `AnalyzeQuerySchema::from_table_desc`. -/
def AnalyzeQuerySchema.from_table_desc (td : AnalyzeQueryTableDesc) :
    Except ErrorCode AnalyzeQuerySchema :=
  match insertColumns td.get_name_parts [] td.get_columns_desc with
  | Except.error e => Except.error e
  | Except.ok m =>
    Except.ok { short_name_columns := m, tables_long_name_columns := [td] }

/-- `AnalyzeQuerySchema::from_table`. -/
def AnalyzeQuerySchema.from_table (t : TableModel) (pfx : List String) :
    Except ErrorCode AnalyzeQuerySchema :=
  AnalyzeQuerySchema.from_table_desc (AnalyzeQueryTableDesc.from_table t pfx)

/-- `AnalyzeQuerySchema::from_subquery`. -/
def AnalyzeQuerySchema.from_subquery (st : QueryAnalyzeState) (pfx : List String) :
    Except ErrorCode AnalyzeQuerySchema :=
  AnalyzeQuerySchema.from_table_desc (AnalyzeQueryTableDesc.from_subquery st pfx)

/-- `AnalyzeQuerySchema::contains_column`. -/
def AnalyzeQuerySchema.contains_column (s : AnalyzeQuerySchema) (column_name : String) :
    Bool :=
  s.short_name_columns.any (fun p => p.1 == column_name)

/-- `AnalyzeQuerySchema::to_data_schema`: one `DataField` per column
description of each table description, in declaration order.  The panic
hidden in `column_name` for ambiguous columns is propagated as `none`. -/
def AnalyzeQuerySchema.to_data_schema (s : AnalyzeQuerySchema) : Option DataSchema :=
  ((s.tables_long_name_columns.map
      (fun td : AnalyzeQueryTableDesc => td.get_columns_desc)).flatten.mapM
    (fun c : AnalyzeQueryColumnDesc => c.column_name.map
      (fun n => DataField.mk n c.data_type c.nullable))).map DataSchema.mk

/-- `AnalyzeQuerySchema::join` is `unimplemented!` in the source: the
call panics unconditionally, modelled as `none`. -/
def AnalyzeQuerySchema.join (_s _other : AnalyzeQuerySchema) :
    Option (Except ErrorCode AnalyzeQuerySchema) :=
  Option.none

/-! Helper lemmas about the scatter pass. -/

theorem scatterFold_cons {α : Type u} (outs : List (List α)) (r : α × Nat)
    (rows : List (α × Nat)) :
    scatterFold outs (r :: rows) =
      scatterFold (outs.set r.2 (outs.getD r.2 [] ++ [r.1])) rows :=
  rfl

theorem scatterFold_length {α : Type u} (rows : List (α × Nat)) :
    ∀ outs : List (List α), (scatterFold outs rows).length = outs.length := by
  induction rows with
  | nil => intro outs; rfl
  | cons r rest ih =>
    intro outs
    rw [scatterFold_cons, ih]
    simp

theorem getD_set_self {α : Type u} (l : List (List α)) (i : Nat) (v : List α)
    (h : i < l.length) : (l.set i v).getD i [] = v := by
  simp [List.getD_eq_getElem?_getD, List.getElem?_set_self h]

theorem getD_set_ne {α : Type u} (l : List (List α)) (i j : Nat) (v : List α)
    (h : i ≠ j) : (l.set i v).getD j [] = l.getD j [] := by
  simp [List.getD_eq_getElem?_getD, List.getElem?_set_ne h]

theorem scatterFold_getD {α : Type u} (rows : List (α × Nat)) :
    ∀ (outs : List (List α)) (k : Nat), k < outs.length →
      (scatterFold outs rows).getD k [] =
        outs.getD k [] ++ (rows.filter (fun r => r.2 == k)).map Prod.fst := by
  induction rows with
  | nil => intro outs k _; simp [scatterFold]
  | cons r rest ih =>
    intro outs k hk
    rw [scatterFold_cons, ih _ k (by simpa using hk)]
    by_cases h : r.2 = k
    · subst h
      rw [getD_set_self _ _ _ hk]
      simp
    · rw [getD_set_ne _ _ _ _ h]
      simp [h]

theorem getD_replicate_nil {α : Type u} (K k : Nat) :
    (List.replicate K ([] : List α)).getD k [] = [] := by
  rw [List.getD_eq_getElem?_getD, List.getElem?_replicate]
  split <;> rfl

theorem scatter_unchecked_length {α : Type u} (xs : List α) (ds : List Nat) (K : Nat) :
    (scatter_unchecked xs ds K).length = K := by
  rw [scatter_unchecked, scatterFold_length]
  simp

theorem scatter_unchecked_getD {α : Type u} (xs : List α) (ds : List Nat) (K k : Nat)
    (hk : k < K) :
    (scatter_unchecked xs ds K).getD k [] =
      ((xs.zip ds).filter (fun r => r.2 == k)).map Prod.fst := by
  rw [scatter_unchecked, scatterFold_getD _ _ k (by simpa using hk), getD_replicate_nil]
  simp

/-- C3: scattering the primitive values 1..10 with destinations
[1,2,3,1,3,2,0,3,1,0] into 4 partitions yields outputs [7,10], [1,4,9],
[2,6] and [3,5,8], as asserted by the scatter test. -/
theorem scatter_primitive_scenario :
    scatter_unchecked [1, 2, 3, 4, 5, 6, 7, 8, 9, 10] [1, 2, 3, 1, 3, 2, 0, 3, 1, 0] 4 =
      [[7, 10], [1, 4, 9], [2, 6], [3, 5, 8]] := by
  rfl

/-- C4: scattering the text values ["a","b","c","d"] with destinations
[1,0,1,1] into 2 partitions yields an output 0 whose concatenated data
buffer is "b" and an output 1 whose concatenated data buffer is "acd",
element bytes in original row order. -/
theorem scatter_utf8_scenario :
    scatter_unchecked ["a", "b", "c", "d"] [1, 0, 1, 1] 2 = [["b"], ["a", "c", "d"]]
    ∧ value_data ((scatter_unchecked ["a", "b", "c", "d"] [1, 0, 1, 1] 2).getD 0 []) = "b"
    ∧ value_data ((scatter_unchecked ["a", "b", "c", "d"] [1, 0, 1, 1] 2).getD 1 []) = "acd" := by
  refine ⟨rfl, ?_, ?_⟩ <;> decide

/-- C5: scattering the booleans [true,false,true,false] with destinations
[1,0,0,1] into 2 partitions yields truth-value sequences [false,true] and
[true,false], whose bit-packed value buffers are the bytes 2 and 1. -/
theorem scatter_boolean_scenario :
    scatter_unchecked [true, false, true, false] [1, 0, 0, 1] 2 =
      [[false, true], [true, false]]
    ∧ bitPack ((scatter_unchecked [true, false, true, false] [1, 0, 0, 1] 2).getD 0 []) = 2
    ∧ bitPack ((scatter_unchecked [true, false, true, false] [1, 0, 0, 1] 2).getD 1 []) = 1 := by
  refine ⟨rfl, rfl, rfl⟩

/-- C6: scattering the list array of groups [1,2,3], [7,8,9], [10,11,12],
[4,5,6] with destinations [1,0,0,1] into 2 partitions keeps every group
intact and in original order: output 0 holds the groups [7,8,9] and
[10,11,12] with child values [7,8,9,10,11,12]; output 1 holds [1,2,3] and
[4,5,6] with child values [1,2,3,4,5,6]; every output group is a whole
input group. -/
theorem scatter_list_scenario :
    scatter_unchecked [[1, 2, 3], [7, 8, 9], [10, 11, 12], [4, 5, 6]] [1, 0, 0, 1] 2 =
      [[[7, 8, 9], [10, 11, 12]], [[1, 2, 3], [4, 5, 6]]]
    ∧ child_values
        ((scatter_unchecked [[1, 2, 3], [7, 8, 9], [10, 11, 12], [4, 5, 6]] [1, 0, 0, 1] 2).getD
          0 []) = [7, 8, 9, 10, 11, 12]
    ∧ child_values
        ((scatter_unchecked [[1, 2, 3], [7, 8, 9], [10, 11, 12], [4, 5, 6]] [1, 0, 0, 1] 2).getD
          1 []) = [1, 2, 3, 4, 5, 6]
    ∧ (((scatter_unchecked [[1, 2, 3], [7, 8, 9], [10, 11, 12], [4, 5, 6]] [1, 0, 0, 1]
          2).flatten).all
        (fun g => [[1, 2, 3], [7, 8, 9], [10, 11, 12], [4, 5, 6]].contains g)) = true := by
  refine ⟨rfl, rfl, rfl, ?_⟩
  decide

/-! Helper lemmas for the K = 1 identity. -/

theorem zip_replicate_zero {α : Type u} (xs : List α) :
    xs.zip (List.replicate xs.length 0) = xs.map (fun x => (x, 0)) := by
  induction xs with
  | nil => rfl
  | cons x rest ih => simpa [List.replicate_succ] using ih

theorem scatterFold_single {α : Type u} (xs : List α) :
    ∀ acc : List α, scatterFold [acc] (xs.map (fun x => (x, 0))) = [acc ++ xs] := by
  induction xs with
  | nil => intro acc; simp [scatterFold]
  | cons x rest ih =>
    intro acc
    rw [List.map_cons, scatterFold_cons]
    simpa using ih (acc ++ [x])

/-- C8: scattering any array (elements carrying their own validity state
as an `Option`) with partition count 1 and the all-zero destination
sequence of matching length returns exactly one output array equal to the
input in content, length, nulls and order. -/
theorem scatter_k1_identity {α : Type u} (xs : List (Option α)) :
    scatter_unchecked xs (List.replicate xs.length 0) 1 = [xs] := by
  rw [scatter_unchecked, zip_replicate_zero]
  simpa using scatterFold_single xs []

/-- C9: the schema-join method is unimplemented in the source: for every
pair of resolved schemas, `AnalyzeQuerySchema::join` panics (modelled as
`none`) and never returns a result. -/
theorem join_unimplemented (s other : AnalyzeQuerySchema) :
    AnalyzeQuerySchema.join s other = Option.none :=
  rfl

/-! Helper lemmas for length conservation. -/

theorem filter_snd_length {α : Type u} (k : Nat) (l : List (α × Nat)) :
    ((l.filter (fun r => r.2 == k)).map Prod.fst).length = (l.map Prod.snd).count k := by
  rw [List.length_map, ← List.countP_eq_length_filter, List.count_eq_countP,
    List.countP_map]
  rfl

theorem sum_range_count (K : Nat) (ds : List Nat) (hb : ∀ d ∈ ds, d < K) :
    (∑ x in Finset.range K, ds.count x) = ds.length := by
  induction ds with
  | nil => simp
  | cons d tl ih =>
    have hd : d < K := hb d (by simp)
    have htl : ∀ x ∈ tl, x < K := fun x hx => hb x (by simp [hx])
    simp only [List.count_cons]
    rw [Finset.sum_add_distrib, ih htl]
    have hone : (∑ x in Finset.range K, if d == x then 1 else 0) = 1 := by
      have hite : ∀ x : Nat, (if d == x then (1 : Nat) else 0) = if d = x then 1 else 0 := by
        intro x
        simp [beq_iff_eq]
      simp only [hite]
      rw [Finset.sum_ite_eq]
      simp [hd]
    rw [hone]
    simp

/-- C2: length conservation: for every input array, destination sequence
of equal length with all values below K, and partition count K, the sum
over k of the lengths of the outputs equals the input length, and for
every k below K the length of output k equals the number of positions
whose destination is k. -/
theorem scatter_length_conservation {α : Type u} (xs : List α) (ds : List Nat) (K : Nat)
    (hlen : ds.length = xs.length) (hb : ∀ d ∈ ds, d < K) :
    (∑ k in Finset.range K, ((scatter_unchecked xs ds K).getD k []).length) = xs.length
    ∧ ∀ k, k < K → ((scatter_unchecked xs ds K).getD k []).length = ds.count k := by
  have hcount : ∀ k, k < K →
      ((scatter_unchecked xs ds K).getD k []).length = ds.count k := by
    intro k hk
    rw [scatter_unchecked_getD xs ds K k hk, filter_snd_length,
      List.map_snd_zip _ _ hlen.le]
  refine ⟨?_, hcount⟩
  rw [Finset.sum_congr rfl (fun k hk => hcount k (Finset.mem_range.mp hk))]
  rw [sum_range_count K ds hb, hlen]

/-- Witness for C2 at a concrete input. -/
theorem scatter_length_conservation_witness :
    (∑ k in Finset.range 2, ((scatter_unchecked [10, 20] [1, 0] 2).getD k []).length) =
      ([10, 20] : List Nat).length
    ∧ ((scatter_unchecked [10, 20] [1, 0] 2).getD 0 []).length = ([1, 0] : List Nat).count 0 :=
  ⟨(scatter_length_conservation [10, 20] [1, 0] 2 rfl (by decide)).1,
   (scatter_length_conservation [10, 20] [1, 0] 2 rfl (by decide)).2 0 (by decide)⟩

/-! Helper lemmas for the stable-partition property. -/

theorem mem_range_zip {n : Nat} {ds : List Nat} (hlen : ds.length = n) (r : Nat × Nat) :
    r ∈ (List.range n).zip ds ↔ r.1 < n ∧ ds.getD r.1 0 = r.2 := by
  rw [List.mem_iff_getElem?]
  constructor
  · rintro ⟨i, hi⟩
    rw [List.getElem?_zip_eq_some] at hi
    obtain ⟨h1, h2⟩ := hi
    rcases List.getElem?_eq_some_iff.mp h1 with ⟨hin, hr1⟩
    rcases List.getElem?_eq_some_iff.mp h2 with ⟨hid, hr2⟩
    have hin2 : i < n := by simpa using hin
    have hri : i = r.1 := by simpa using hr1
    constructor
    · omega
    · rw [← hri, List.getD_eq_getElem?_getD, List.getElem?_eq_getElem hid,
        Option.getD_some]
      exact hr2
  · rintro ⟨h1, h2⟩
    refine ⟨r.1, List.getElem?_zip_eq_some.mpr ⟨List.getElem?_range h1, ?_⟩⟩
    have hlt : r.1 < ds.length := hlen ▸ h1
    rw [List.getD_eq_getElem?_getD, List.getElem?_eq_getElem hlt, Option.getD_some] at h2
    rw [List.getElem?_eq_getElem hlt]
    exact congrArg some h2

theorem zip_eq_map_range {α : Type u} (xs : List α) (ds : List Nat) (x0 : α)
    (hlen : ds.length = xs.length) :
    xs.zip ds =
      ((List.range ds.length).zip ds).map (fun r => (xs.getD r.1 x0, r.2)) := by
  apply List.ext_getElem
  · simp [hlen]
  · intro i h1 h2
    have hx : i < xs.length := by simpa [hlen] using h2
    have hd : i < ds.length := by simpa using h2
    simp [List.getElem_zip, List.getElem_map, List.getD_eq_getElem?_getD,
      List.getElem?_eq_getElem hx]

/-- C1: scatter is a stable partition: for every input array, destination
sequence of equal length with all values below K, and every k below K,
the sequence of original row indices whose destination is k (obtained by
scattering the index range with the same destinations) is strictly
increasing, consists exactly of the positions whose destination is k, and
output k of the scattered array is the input read at those indices in
that order. -/
theorem scatter_stable_partition {α : Type u} (xs : List α) (ds : List Nat) (K k : Nat)
    (x0 : α) (hlen : ds.length = xs.length) (_hb : ∀ d ∈ ds, d < K) (hk : k < K) :
    List.Pairwise (· < ·) ((scatter_unchecked (List.range ds.length) ds K).getD k [])
    ∧ (∀ i, i ∈ (scatter_unchecked (List.range ds.length) ds K).getD k [] ↔
        i < ds.length ∧ ds.getD i 0 = k)
    ∧ (scatter_unchecked xs ds K).getD k [] =
        ((scatter_unchecked (List.range ds.length) ds K).getD k []).map
          (fun i => xs.getD i x0) := by
  have hchar := scatter_unchecked_getD (List.range ds.length) ds K k hk
  have hcharx := scatter_unchecked_getD xs ds K k hk
  refine ⟨?_, ?_, ?_⟩
  · rw [hchar]
    have hsub : List.Sublist
        ((((List.range ds.length).zip ds).filter (fun r => r.2 == k)).map Prod.fst)
        (((List.range ds.length).zip ds).map Prod.fst) :=
      (List.filter_sublist _).map _
    rw [List.map_fst_zip _ _ (by simp)] at hsub
    exact (List.pairwise_lt_range ds.length).sublist hsub
  · intro i
    rw [hchar]
    constructor
    · intro hi
      rcases List.mem_map.mp hi with ⟨r, hrf, hri⟩
      rcases List.mem_filter.mp hrf with ⟨hrz, hrk⟩
      have hmem := (mem_range_zip rfl r).mp hrz
      have hrk2 : r.2 = k := by simpa using hrk
      refine ⟨hri ▸ hmem.1, ?_⟩
      rw [← hri]
      exact hmem.2.trans hrk2
    · rintro ⟨h1, h2⟩
      refine List.mem_map.mpr ⟨(i, k), List.mem_filter.mpr ⟨?_, by simp⟩, rfl⟩
      exact (mem_range_zip rfl (i, k)).mpr ⟨h1, h2⟩
  · rw [hchar, hcharx, zip_eq_map_range xs ds x0 hlen, List.filter_map,
      List.map_map, List.map_map]
    rfl

/-- Witness for C1 at a concrete input. -/
theorem scatter_stable_partition_witness :
    List.Pairwise (· < ·)
      ((scatter_unchecked (List.range ([1, 0] : List Nat).length) [1, 0] 2).getD 0 [])
    ∧ (0 ∈ (scatter_unchecked (List.range ([1, 0] : List Nat).length) [1, 0] 2).getD 0 [] ↔
        0 < ([1, 0] : List Nat).length ∧ ([1, 0] : List Nat).getD 0 0 = 0)
    ∧ (scatter_unchecked [5, 6] [1, 0] 2).getD 0 [] =
        ((scatter_unchecked (List.range ([1, 0] : List Nat).length) [1, 0] 2).getD 0 []).map
          (fun i => ([5, 6] : List Nat).getD i 0) :=
  have h := scatter_stable_partition [5, 6] [1, 0] 2 0 0 rfl (by decide) (by decide)
  ⟨h.1, h.2.1 0, h.2.2⟩

/-! Helper lemmas for the checked entry point. -/

theorem firstInvalid_ne_none (K : Nat) :
    ∀ ds : List Nat, (∃ d ∈ ds, K ≤ d) → ∀ i, firstInvalid K i ds ≠ none := by
  intro ds
  induction ds with
  | nil => intro hd; simp at hd
  | cons d tl ih =>
    intro hd i
    by_cases h : K ≤ d
    · simp [firstInvalid, h]
    · have htl : ∃ d0 ∈ tl, K ≤ d0 := by
        rcases hd with ⟨d0, hd0, hk0⟩
        rcases List.mem_cons.mp hd0 with he | hm
        · exact absurd (he ▸ hk0) h
        · exact ⟨d0, hm, hk0⟩
      rw [firstInvalid, if_neg h]
      exact ih htl (i + 1)

theorem firstInvalid_spec (K : Nat) :
    ∀ (ds : List Nat) (i j d : Nat), firstInvalid K i ds = some (j, d) →
      K ≤ d ∧ i ≤ j ∧ ds.getD (j - i) 0 = d := by
  intro ds
  induction ds with
  | nil => intro i j d h; simp [firstInvalid] at h
  | cons d0 tl ih =>
    intro i j d h
    by_cases hc : K ≤ d0
    · rw [firstInvalid, if_pos hc] at h
      have hji : i = j ∧ d0 = d := by simpa using h
      obtain ⟨h1, h2⟩ := hji
      subst h1
      subst h2
      simpa using hc
    · rw [firstInvalid, if_neg hc] at h
      obtain ⟨hkd, hij, hget⟩ := ih (i + 1) j d h
      refine ⟨hkd, by omega, ?_⟩
      have hsub : j - i = (j - (i + 1)) + 1 := by omega
      rw [hsub, List.getD_cons_succ]
      exact hget

/-- C7: checked-entry-point error behavior: a destination sequence whose
length differs from the array length yields a LengthMismatch error; with
matching lengths, partition count 0 on a non-empty array yields a
ZeroPartitions error; with matching lengths and a positive partition
count, any destination value at least K yields an InvalidDestination
error carrying the offending row index and value.  The model is pure, so
a validation failure produces nothing but the error value. -/
theorem scatter_checked_validation {α : Type u} (xs : List α) (ds : List Nat) (K : Nat) :
    (ds.length ≠ xs.length →
      scatter_checked xs ds K =
        Except.error (ScatterError.LengthMismatch xs.length ds.length))
    ∧ (ds.length = xs.length → K = 0 → xs ≠ [] →
      scatter_checked xs ds K = Except.error ScatterError.ZeroPartitions)
    ∧ (ds.length = xs.length → 0 < K → (∃ d ∈ ds, K ≤ d) →
      firstInvalid K 0 ds ≠ none
      ∧ ∀ i d, firstInvalid K 0 ds = some (i, d) →
          K ≤ d ∧ ds.getD i 0 = d
          ∧ scatter_checked xs ds K =
              Except.error (ScatterError.InvalidDestination i d)) := by
  refine ⟨?_, ?_, ?_⟩
  · intro h
    rw [scatter_checked, if_pos h]
  · intro hlen hK hne
    have hx : xs.length ≠ 0 := by
      intro h0
      exact hne (List.length_eq_zero.mp h0)
    rw [scatter_checked, if_neg (fun h => h hlen), if_pos ⟨hK, hx⟩]
  · intro hlen hK hex
    refine ⟨firstInvalid_ne_none K ds hex 0, ?_⟩
    intro i d hfi
    obtain ⟨hkd, _, hget⟩ := firstInvalid_spec K ds 0 i d hfi
    refine ⟨hkd, by simpa using hget, ?_⟩
    rw [scatter_checked, if_neg (fun h => h hlen),
      if_neg (fun hc => Nat.not_eq_zero_of_lt hK hc.1), hfi]

/-- Witness for C7 at concrete inputs, one per error kind. -/
theorem scatter_checked_validation_witness :
    scatter_checked [5] ([] : List Nat) 1 =
      Except.error (ScatterError.LengthMismatch 1 0)
    ∧ scatter_checked [5] [0] 0 = Except.error ScatterError.ZeroPartitions
    ∧ scatter_checked [5] [7] 1 =
        Except.error (ScatterError.InvalidDestination 0 7) :=
  ⟨(scatter_checked_validation [5] [] 1).1 (by decide),
   (scatter_checked_validation [5] [0] 0).2.1 rfl rfl (by decide),
   (((scatter_checked_validation [5] [7] 1).2.2 rfl (by decide)
      ⟨7, by decide, by decide⟩).2 0 7 rfl).2.2⟩

/-! Helper lemmas for the query-schema construction. -/

theorem insertColumns_ok (np : List String) :
    ∀ (cols : List AnalyzeQueryColumnDesc) (m : List (String × AnalyzeQueryColumnDesc)),
      (cols.map (fun c => c.short_name)).Nodup →
      (∀ c ∈ cols, ∀ p ∈ m, p.1 ≠ c.short_name) →
      insertColumns np m cols = Except.ok (m ++ cols.map (fun c => (c.short_name, c))) := by
  intro cols
  induction cols with
  | nil => intro m _ _; simp [insertColumns]
  | cons c rest ih =>
    intro m hnd hdisj
    have hany : m.any (fun p => p.1 == c.short_name) = false := by
      rw [List.any_eq_false]
      intro p hp
      simpa using hdisj c (by simp) p hp
    rw [insertColumns, if_neg (by simp [hany])]
    have hnd2 : (rest.map (fun c => c.short_name)).Nodup :=
      (List.nodup_cons.mp (by simpa using hnd)).2
    have hnotin : c.short_name ∉ rest.map (fun c => c.short_name) :=
      (List.nodup_cons.mp (by simpa using hnd)).1
    rw [ih (m ++ [(c.short_name, c)]) hnd2 ?_]
    · simp
    · intro c2 hc2 p hp
      rcases List.mem_append.mp hp with hm | he
      · exact hdisj c2 (by simp [hc2]) p hm
      · have hpe : p = (c.short_name, c) := by simpa using he
        subst hpe
        intro hcon
        exact hnotin (by exact List.mem_map.mpr ⟨c2, hc2, hcon.symm⟩)

theorem insertColumns_error (np : List String) :
    ∀ (cols : List AnalyzeQueryColumnDesc) (m : List (String × AnalyzeQueryColumnDesc)),
      ¬ ((cols.map (fun c => c.short_name)).Nodup ∧
          ∀ c ∈ cols, ∀ p ∈ m, p.1 ≠ c.short_name) →
      insertColumns np m cols =
        Except.error
          ⟨"Logical error: same columns in " ++ String.intercalate "." np ++
            ", this is a bug."⟩ := by
  intro cols
  induction cols with
  | nil => intro m h; exact absurd ⟨by simp, by simp⟩ h
  | cons c rest ih =>
    intro m h
    by_cases hany : m.any (fun p => p.1 == c.short_name) = true
    · rw [insertColumns, if_pos hany]
    · rw [insertColumns, if_neg hany]
      apply ih
      intro hcon
      apply h
      constructor
      · rw [List.map_cons, List.nodup_cons]
        refine ⟨?_, hcon.1⟩
        intro hmem
        rcases List.mem_map.mp hmem with ⟨c2, hc2, he⟩
        exact hcon.2 c2 hc2 (c.short_name, c) (by simp) he.symm
      · intro c2 hc2 p hp
        rcases List.mem_cons.mp hc2 with he | hm
        · subst he
          intro hpe
          exact hany (List.any_eq_true.mpr ⟨p, hp, by simp [hpe]⟩)
        · exact hcon.2 c2 hm p (List.mem_append_left _ hp)

theorem mapM_rebuild (fs : List DataField) :
    (fs.map (fun f => AnalyzeQueryColumnDesc.from_field f false)).mapM
      (fun c : AnalyzeQueryColumnDesc => c.column_name.map
        (fun n => DataField.mk n c.data_type c.nullable)) = some fs := by
  induction fs with
  | nil => rfl
  | cons f rest ih =>
    rw [List.map_cons, List.mapM_cons, ih]
    rfl

theorem from_table_desc_spec (schema : DataSchema) (pfx : List String)
    (td : AnalyzeQueryTableDesc)
    (hcols : td.get_columns_desc =
      schema.fields.map (fun f => AnalyzeQueryColumnDesc.from_field f false))
    (hnp : td.get_name_parts = pfx) :
    (AnalyzeQuerySchema.from_table_desc td =
        Except.error
          ⟨"Logical error: same columns in " ++ String.intercalate "." pfx ++
            ", this is a bug."⟩
      ↔ ¬ (schema.fields.map DataField.name).Nodup)
    ∧ ∀ s, AnalyzeQuerySchema.from_table_desc td = Except.ok s →
        (∀ nm, s.contains_column nm = true ↔ nm ∈ schema.fields.map DataField.name)
        ∧ s.to_data_schema = some schema := by
  have hnames :
      (schema.fields.map (fun f => AnalyzeQueryColumnDesc.from_field f false)).map
        (fun c => c.short_name) = schema.fields.map DataField.name := by
    rw [List.map_map]
    rfl
  by_cases hnd : (schema.fields.map DataField.name).Nodup
  · have hok : AnalyzeQuerySchema.from_table_desc td =
        Except.ok
          ⟨(schema.fields.map (fun f => AnalyzeQueryColumnDesc.from_field f false)).map
              (fun c => (c.short_name, c)),
            [td]⟩ := by
      rw [AnalyzeQuerySchema.from_table_desc, hnp, hcols,
        insertColumns_ok pfx _ [] (by rw [hnames]; exact hnd)
          (by intro c _ p hp; simp at hp)]
      rfl
    refine ⟨⟨fun h => ?_, fun h => absurd hnd h⟩, fun s hs => ?_⟩
    · rw [hok] at h
      exact absurd h (by simp)
    · rw [hok] at hs
      injection hs with hv
      subst hv
      constructor
      · intro nm
        rw [AnalyzeQuerySchema.contains_column]
        show ((schema.fields.map (fun f => AnalyzeQueryColumnDesc.from_field f false)).map
          (fun c => (c.short_name, c))).any (fun p => p.1 == nm) = true ↔ _
        rw [List.any_eq_true]
        constructor
        · rintro ⟨p, hp, hbe⟩
          rcases List.mem_map.mp hp with ⟨c, hc, hcp⟩
          have hce : c.short_name = nm := by
            rw [← hcp] at hbe
            simpa using hbe
          rw [← hnames]
          exact List.mem_map.mpr ⟨c, hc, hce⟩
        · intro hmm
          rw [← hnames] at hmm
          rcases List.mem_map.mp hmm with ⟨c, hc, he⟩
          exact ⟨(c.short_name, c), List.mem_map.mpr ⟨c, hc, rfl⟩, by simp [he]⟩
      · rw [AnalyzeQuerySchema.to_data_schema]
        show ((([td].map (fun td : AnalyzeQueryTableDesc =>
            td.get_columns_desc)).flatten.mapM
          (fun c : AnalyzeQueryColumnDesc => c.column_name.map
            (fun n => DataField.mk n c.data_type c.nullable))).map DataSchema.mk) = _
        rw [List.map_cons, List.map_nil, List.flatten_cons, List.flatten_nil,
          List.append_nil, hcols, mapM_rebuild]
        rfl
  · have herr : AnalyzeQuerySchema.from_table_desc td =
        Except.error
          ⟨"Logical error: same columns in " ++ String.intercalate "." pfx ++
            ", this is a bug."⟩ := by
      rw [AnalyzeQuerySchema.from_table_desc, hnp, hcols,
        insertColumns_error pfx _ []
          (fun hcon => hnd (by rw [← hnames]; exact hcon.1))]
    refine ⟨⟨fun _ => hnd, fun _ => herr⟩, fun s hs => ?_⟩
    rw [herr] at hs
    exact absurd hs (by simp)

/-- C10: building a schema from a single table description (through
`from_table` or `from_subquery`, both of which call `from_table_desc`)
fails with the `LogicalError` exactly when two columns share a short
name; on success `contains_column` holds exactly for the short names of
the columns, and `to_data_schema` reproduces the columns in declaration
order with matching name, data type and nullability. -/
theorem from_table_single_table_spec (schema : DataSchema) (pfx : List String) :
    (AnalyzeQuerySchema.from_table ⟨schema⟩ pfx =
        Except.error
          ⟨"Logical error: same columns in " ++ String.intercalate "." pfx ++
            ", this is a bug."⟩
      ↔ ¬ (schema.fields.map DataField.name).Nodup)
    ∧ (∀ s, AnalyzeQuerySchema.from_table ⟨schema⟩ pfx = Except.ok s →
        (∀ nm, s.contains_column nm = true ↔ nm ∈ schema.fields.map DataField.name)
        ∧ s.to_data_schema = some schema)
    ∧ (AnalyzeQuerySchema.from_subquery ⟨schema⟩ pfx =
        Except.error
          ⟨"Logical error: same columns in " ++ String.intercalate "." pfx ++
            ", this is a bug."⟩
      ↔ ¬ (schema.fields.map DataField.name).Nodup)
    ∧ ∀ s, AnalyzeQuerySchema.from_subquery ⟨schema⟩ pfx = Except.ok s →
        (∀ nm, s.contains_column nm = true ↔ nm ∈ schema.fields.map DataField.name)
        ∧ s.to_data_schema = some schema :=
  have h1 := from_table_desc_spec schema pfx
    (AnalyzeQueryTableDesc.from_table ⟨schema⟩ pfx) rfl rfl
  have h2 := from_table_desc_spec schema pfx
    (AnalyzeQueryTableDesc.from_subquery ⟨schema⟩ pfx) rfl rfl
  ⟨h1.1, h1.2, h2.1, h2.2⟩

/-- Witness for C10 at a concrete two-column table. -/
theorem from_table_single_table_spec_witness :
    AnalyzeQuerySchema.contains_column
      ⟨[("a", ⟨"a", ⟨"u"⟩, false, false⟩), ("b", ⟨"b", ⟨"u"⟩, true, false⟩)],
        [AnalyzeQueryTableDesc.table ⟨⟨[⟨"a", ⟨"u"⟩, false⟩, ⟨"b", ⟨"u"⟩, true⟩]⟩⟩ ["t"]
          [⟨"a", ⟨"u"⟩, false, false⟩, ⟨"b", ⟨"u"⟩, true, false⟩]]⟩ "a" = true
    ∧ AnalyzeQuerySchema.to_data_schema
        ⟨[("a", ⟨"a", ⟨"u"⟩, false, false⟩), ("b", ⟨"b", ⟨"u"⟩, true, false⟩)],
          [AnalyzeQueryTableDesc.table ⟨⟨[⟨"a", ⟨"u"⟩, false⟩, ⟨"b", ⟨"u"⟩, true⟩]⟩⟩ ["t"]
            [⟨"a", ⟨"u"⟩, false, false⟩, ⟨"b", ⟨"u"⟩, true, false⟩]]⟩ =
      some ⟨[⟨"a", ⟨"u"⟩, false⟩, ⟨"b", ⟨"u"⟩, true⟩]⟩ := by
  have h := (from_table_single_table_spec
      ⟨[⟨"a", ⟨"u"⟩, false⟩, ⟨"b", ⟨"u"⟩, true⟩]⟩ ["t"]).2.1
    ⟨[("a", ⟨"a", ⟨"u"⟩, false, false⟩), ("b", ⟨"b", ⟨"u"⟩, true, false⟩)],
      [AnalyzeQueryTableDesc.table ⟨⟨[⟨"a", ⟨"u"⟩, false⟩, ⟨"b", ⟨"u"⟩, true⟩]⟩⟩ ["t"]
        [⟨"a", ⟨"u"⟩, false, false⟩, ⟨"b", ⟨"u"⟩, true, false⟩]]⟩ rfl
  exact ⟨(h.1 "a").mpr (by simp), h.2⟩
